import Mathlib

/-!
# Dubins paths: header declarations, binding layer and core contract

A shallow embedding of `src/dubins/include/dubins.hpp` (the declared interface of the
core: enumerations, status codes, the `DIRDATA` table, the `DubinsPath` record) and of
`src/dubins/src/dubins_pybind.cpp` (the `_DubinsPath` wrapper class and the module-level
functions `path` and `norm_path`).

Conventions of the embedding:

* a C++ `double` is an exact rational (`Scalar`); rounding, infinities and NaN are outside
  the model;
* `std::array<double, 3>` is the record `Array3`;
* a function `int f(..., T &out)` becomes a function returning `Int × T`: the status and the
  content of the output argument after the call.  The content of the output argument before
  the call is an explicit argument, so that "not written" is expressible;
* a C++ exception is `Except.error` carrying the message of the `std::runtime_error`;
* the bodies of the core functions are not part of the repository files embedded here (only
  their declarations in the header are).  The binding layer is therefore verified against an
  arbitrary implementation of the declared interface (`CoreApi`), and the contracts of the
  core operations are stated on definitions modelled from the specification, each marked so
  in its doc comment.
-/

namespace dubins

/-! ## Declarations of `dubins.hpp` -/

/-- A C++ `double`, idealised as an exact rational number. -/
abbrev Scalar : Type := ℚ

/-- The type `std::array<double, 3>`: three scalars, indexed 0, 1, 2. -/
structure Array3 where
  x0 : Scalar
  x1 : Scalar
  x2 : Scalar
deriving DecidableEq, Repr

/-- The enumeration `enum class DubinsPathType`. -/
inductive DubinsPathType where
  | LSL
  | LSR
  | RSL
  | RSR
  | RLR
  | LRL
deriving DecidableEq, Repr

/-- The integer value the header assigns to each enumerator of `DubinsPathType`. -/
def DubinsPathType.toInt : DubinsPathType → Int
  | .LSL => 0
  | .LSR => 1
  | .RSL => 2
  | .RSR => 3
  | .RLR => 4
  | .LRL => 5

/-- The enumerator's identifier, letter by letter. -/
def DubinsPathType.letters : DubinsPathType → List Char
  | .LSL => ['L', 'S', 'L']
  | .LSR => ['L', 'S', 'R']
  | .RSL => ['R', 'S', 'L']
  | .RSR => ['R', 'S', 'R']
  | .RLR => ['R', 'L', 'R']
  | .LRL => ['L', 'R', 'L']

/-- The six words in the order of their integer values. -/
def allWords : List DubinsPathType :=
  [.LSL, .LSR, .RSL, .RSR, .RLR, .LRL]

/-- The enumeration `enum class SegmentType`. -/
inductive SegmentType where
  | L_SEG
  | S_SEG
  | R_SEG
deriving DecidableEq, Repr

/-- The integer value the header assigns to each enumerator of `SegmentType`. -/
def SegmentType.toInt : SegmentType → Int
  | .L_SEG => 0
  | .S_SEG => 1
  | .R_SEG => 2

/-- The letter that starts the enumerator's identifier (`L_SEG`, `S_SEG`, `R_SEG`). -/
def SegmentType.letter : SegmentType → Char
  | .L_SEG => 'L'
  | .S_SEG => 'S'
  | .R_SEG => 'R'

/-- The record `struct DubinsPath`. -/
structure DubinsPath where
  qi : Array3
  param : Array3
  rho : Scalar
  type : DubinsPathType
deriving DecidableEq, Repr

/-- No error. -/
def EDUBOK : Int := 0
/-- Colocated configurations. -/
def EDUBCOCONFIGS : Int := 1
/-- Path parameterisation error. -/
def EDUBPARAM : Int := 2
/-- The rho value is invalid. -/
def EDUBBADRHO : Int := 3
/-- No connection between configurations with this word. -/
def EDUBNOPATH : Int := 4

/-- The table `DIRDATA[][3]`: one row of three segment types per path type, in the order
of the initialiser list. -/
def DIRDATA : List (List SegmentType) :=
  [ [.L_SEG, .S_SEG, .L_SEG],
    [.L_SEG, .S_SEG, .R_SEG],
    [.R_SEG, .S_SEG, .L_SEG],
    [.R_SEG, .S_SEG, .R_SEG],
    [.R_SEG, .L_SEG, .R_SEG],
    [.L_SEG, .R_SEG, .L_SEG] ]

/-- The row `DIRDATA[static_cast<int>(w)]`. -/
def dirdataRow (w : DubinsPathType) : Option (List SegmentType) :=
  DIRDATA.get? w.toInt.toNat

/-- The record `struct DubinsIntermediateResults`. -/
structure DubinsIntermediateResults where
  alpha : Scalar
  beta : Scalar
  d : Scalar
  sa : Scalar
  sb : Scalar
  ca : Scalar
  cb : Scalar
  c_ab : Scalar
  d_sq : Scalar
deriving DecidableEq, Repr

/-! ## The core operations, modelled from the specification

The header only declares the core functions.  Their contracts are modelled here from the
specification, in the specification's own shape (`operation → value | FAILS(kind)`): a
result is `Except Int value`, the failure kind being the header's status code.  The
closed-form trigonometric formulas, which the specification names without giving them and
which are not rational, are taken as parameters (`ClosedForms`).
-/

/-- The status a core operation returns: `EDUBOK` with a value, else the failure's code. -/
def status {α : Type} : Except Int α → Int
  | .ok _ => EDUBOK
  | .error e => e

/-- The closed-form trigonometric parts of the core, as parameters: the intermediate
geometry of a valid input, the synthesis of one word (`none`: the word is infeasible), and
the pose reached from a pose after travelling a given length along a segment of a given
kind at a given radius. -/
structure ClosedForms where
  geometry : Array3 → Array3 → Scalar → DubinsIntermediateResults
  synthesize : DubinsIntermediateResults → DubinsPathType → Option Array3
  propagate : Scalar → Array3 → SegmentType → Scalar → Array3

/-- The element `a[i]` of a `std::array<double, 3>`, for an index in 0..2. -/
def Array3.get (a : Array3) : Fin 3 → Scalar
  | 0 => a.x0
  | 1 => a.x1
  | 2 => a.x2

/-- The entry `DIRDATA[static_cast<int>(w)][i]`. -/
def segmentKind (w : DubinsPathType) (i : Fin 3) : SegmentType :=
  (((dirdataRow w).getD []).get? i.val).getD .S_SEG

/-- Modelled from the spec: `dubins_intermediate_results`, whose body is not in the
repository files.  "Contract: radius must be > 0, else fails" with InvalidRadius; otherwise
the geometry is the closed-form one. -/
def dubins_intermediate_results (F : ClosedForms) (q0 q1 : Array3) (rho : Scalar) :
    Except Int DubinsIntermediateResults :=
  if rho ≤ 0 then .error EDUBBADRHO
  else .ok (F.geometry q0 q1 rho)

/-- Modelled from the spec: `dubins_path` (construct), whose body is not in the repository
files.  "Directly invokes synthesis for the single requested word; does not search other
words"; fails with InvalidRadius or NoPathOfThisWord. -/
def dubins_path (F : ClosedForms) (q0 q1 : Array3) (rho : Scalar)
    (pathType : DubinsPathType) : Except Int DubinsPath :=
  match dubins_intermediate_results F q0 q1 rho with
  | .error e => .error e
  | .ok g =>
    match F.synthesize g pathType with
    | none => .error EDUBNOPATH
    | some params => .ok { qi := q0, param := params, rho := rho, type := pathType }

/-- The total normalized length of a synthesized word: `p0 + p1 + p2`. -/
def cost (params : Array3) : Scalar :=
  params.x0 + params.x1 + params.x2

/-- Modelled from the spec: the search of `dubins_shortest_path` over the words still to
try, given the best result so far.  "For each feasible word compute the total normalized
length; retain the minimum-length feasible result, breaking ties by the fixed enumeration
order (earlier word wins ties)". -/
def searchWords (F : ClosedForms) (g : DubinsIntermediateResults) :
    List DubinsPathType → Option (DubinsPathType × Array3) →
    Option (DubinsPathType × Array3)
  | [], best => best
  | w :: ws, best =>
    match F.synthesize g w with
    | none => searchWords F g ws best
    | some params =>
      match best with
      | none => searchWords F g ws (some (w, params))
      | some (bw, bp) =>
        if cost params < cost bp then searchWords F g ws (some (w, params))
        else searchWords F g ws (some (bw, bp))

/-- Modelled from the spec: `dubins_shortest_path` (shortest), whose body is not in the
repository files.  "Contract: radius must be > 0.  If start and end positions coincide and
headings coincide, fails with CoLocated.  Otherwise: compute intermediate geometry once,
then attempt synthesis for all six words in the fixed order ...  Fails with NoPath only if
all six words are infeasible."  The radius is checked first: invalid radius is "always
reported", "for every combination of start/end". -/
def dubins_shortest_path (F : ClosedForms) (q0 q1 : Array3) (rho : Scalar) :
    Except Int DubinsPath :=
  if rho ≤ 0 then .error EDUBBADRHO
  else if q0 = q1 then .error EDUBCOCONFIGS
  else
    match dubins_intermediate_results F q0 q1 rho with
    | .error e => .error e
    | .ok g =>
      match searchWords F g allWords none with
      | none => .error EDUBNOPATH
      | some (w, params) => .ok { qi := q0, param := params, rho := rho, type := w }

/-- Modelled from the spec: `dubins_segment_length_normalized`, whose body is not in the
repository files: the segment parameter, "a normalized (radius-independent) length".  The
index is one of 0, 1, 2; any other index is outside the operation's contract. -/
def dubins_segment_length_normalized (path : DubinsPath) (i : Fin 3) : Scalar :=
  path.param.get i

/-- Modelled from the spec: `dubins_segment_length`, whose body is not in the repository
files.  "Returns path.param[index] * path.radius." -/
def dubins_segment_length (path : DubinsPath) (i : Fin 3) : Scalar :=
  path.param.get i * path.rho

/-- Modelled from the spec: `dubins_path_length`, whose body is not in the repository
files.  "Sum of the three segment lengths." -/
def dubins_path_length (path : DubinsPath) : Scalar :=
  dubins_segment_length path 0 + dubins_segment_length path 1 + dubins_segment_length path 2

/-- Modelled from the spec: `dubins_path_sample`, whose body is not in the repository
files.  "Contract: 0 ≤ t < total length(path), else fails" with OutOfRange, the header's
`EDUBPARAM`.  "Determines which of the three segments contains offset t (by subtracting
consumed segment lengths in order), then evaluates the closed-form pose-propagation formula
for that segment's kind." -/
def dubins_path_sample (F : ClosedForms) (path : DubinsPath) (t : Scalar) :
    Except Int Array3 :=
  if t < 0 ∨ dubins_path_length path ≤ t then .error EDUBPARAM
  else
    let l0 := dubins_segment_length path 0
    let l1 := dubins_segment_length path 1
    if t < l0 then
      .ok (F.propagate path.rho path.qi (segmentKind path.type 0) t)
    else
      let q1 := F.propagate path.rho path.qi (segmentKind path.type 0) l0
      if t - l0 < l1 then
        .ok (F.propagate path.rho q1 (segmentKind path.type 1) (t - l0))
      else
        let q2 := F.propagate path.rho q1 (segmentKind path.type 1) l1
        .ok (F.propagate path.rho q2 (segmentKind path.type 2) (t - l0 - l1))

/-- What a walk of `dubins_path_sample_many` leaves behind: the status it returns, the
state of the callback's captured data, and (ghost) the arguments of the callback's
invocations, in invocation order. -/
structure WalkResult (σ : Type) where
  ret : Int
  state : σ
  calls : List (Array3 × Scalar)

/-- Modelled from the spec: the loop of `dubins_path_sample_many` from offset `x` on, with
at most `fuel` iterations left (`none`: the loop is still running when the fuel is spent).
"Repeatedly invokes sample at offsets 0, step, 2·step, … while offset < total
length(path), passing each resulting configuration and its offset to a caller-supplied
visitor; stops early if the visitor signals stop".  The callback is a transformer of the
data it captures, returning its `int` result. -/
def sampleManyLoop {σ : Type} (F : ClosedForms) (path : DubinsPath) (stepSize : Scalar)
    (cb : Array3 → Scalar → σ → Int × σ) :
    Nat → Scalar → σ → List (Array3 × Scalar) → Option (WalkResult σ)
  | 0, x, s, log =>
    if x < dubins_path_length path then none
    else some { ret := 0, state := s, calls := log }
  | fuel + 1, x, s, log =>
    if x < dubins_path_length path then
      match dubins_path_sample F path x with
      | .ok q =>
        let r := cb q x s
        if r.1 ≠ 0 then some { ret := r.1, state := r.2, calls := log ++ [(q, x)] }
        else sampleManyLoop F path stepSize cb fuel (x + stepSize) r.2 (log ++ [(q, x)])
      | .error _ => sampleManyLoop F path stepSize cb fuel (x + stepSize) s log
    else some { ret := 0, state := s, calls := log }

/-- Modelled from the spec: `dubins_path_sample_many`, whose body is not in the repository
files: the walk from offset 0.  Header: "The sampling process continues until the whole
path is sampled, or the callback returns a non-zero value"; it returns "zero on successful
completion, or the result of the callback". -/
def dubins_path_sample_many {σ : Type} (F : ClosedForms) (fuel : Nat) (path : DubinsPath)
    (stepSize : Scalar) (cb : Array3 → Scalar → σ → Int × σ) (user_data : σ) :
    Option (WalkResult σ) :=
  sampleManyLoop F path stepSize cb fuel 0 user_data []

/-- The closed forms on the x-axis at heading 0 without turning, where they are rational: a
straight segment advances x by the length travelled, a turn of length 0 leaves the pose
unchanged; every word is synthesized as a straight run of the normalized distance. -/
def axisForms : ClosedForms where
  geometry := fun q0 q1 rho =>
    { alpha := 0, beta := 0, d := (q1.x0 - q0.x0) / rho, sa := 0, sb := 0, ca := 1, cb := 1,
      c_ab := 1, d_sq := ((q1.x0 - q0.x0) / rho) * ((q1.x0 - q0.x0) / rho) }
  synthesize := fun g w =>
    match w with
    | .LSL => some ⟨0, g.d, 0⟩
    | .RSR => some ⟨0, g.d, 0⟩
    | _ => none
  propagate := fun _ q k t =>
    match k with
    | .S_SEG => ⟨q.x0 + t, q.x1, q.x2⟩
    | _ => q

/-- The straight path of length 4 from the origin along the x-axis, as the word LSL with
both turns of length 0. -/
def straightPath : DubinsPath :=
  { qi := ⟨0, 0, 0⟩, param := ⟨0, 4, 0⟩, rho := 1, type := .LSL }

end dubins

/-! ## The binding layer `dubins_pybind.cpp` -/

/-- The core functions the binding layer calls, as the header declares them.  The first
argument that is a reference the function writes to appears as an argument (its content
before the call) and in the result (its content after the call).  `dubins_path` receives
the path type as the `int` that `static_cast<DubinsPathType>(word)` carries. -/
structure CoreApi where
  dubins_shortest_path :
    dubins.DubinsPath → dubins.Array3 → dubins.Array3 → dubins.Scalar → Int × dubins.DubinsPath
  dubins_path :
    dubins.DubinsPath → dubins.Array3 → dubins.Array3 → dubins.Scalar → Int →
    Int × dubins.DubinsPath
  dubins_path_endpoint : dubins.DubinsPath → dubins.Array3 → Int × dubins.Array3
  dubins_path_sample : dubins.DubinsPath → dubins.Scalar → dubins.Array3 → Int × dubins.Array3
  dubins_extract_subpath :
    dubins.DubinsPath → dubins.Scalar → dubins.DubinsPath → Int × dubins.DubinsPath

/-- The class `_DubinsPath`: one private member `ppth`. -/
structure _DubinsPath where
  ppth : dubins.DubinsPath
deriving DecidableEq, Repr

/-- Whether a call ended in an exception. -/
def raises {α : Type} : Except String α → Prop
  | .ok _ => False
  | .error _ => True

namespace _DubinsPath

open dubins

/-- The default constructor `_DubinsPath() {}`: it initialises nothing, so `ppth` keeps the
indeterminate content `u` of the object's storage. -/
def new (u : DubinsPath) : _DubinsPath :=
  { ppth := u }

/-- The static member function `_DubinsPath::shortest_path`. -/
def shortest_path (core : CoreApi) (u : DubinsPath) (q0 q1 : Array3) (rho : Scalar) :
    Except String _DubinsPath :=
  let path := new u
  let r := core.dubins_shortest_path path.ppth q0 q1 rho
  if r.1 ≠ 0 then .error "Path did not initialize correctly"
  else .ok { path with ppth := r.2 }

/-- The static member function `_DubinsPath::path`. -/
def path (core : CoreApi) (u : DubinsPath) (q0 q1 : Array3) (rho : Scalar) (word : Int) :
    Except String _DubinsPath :=
  let path := new u
  let r := core.dubins_path path.ppth q0 q1 rho word
  if r.1 ≠ 0 then .error "Path did not initialize correctly"
  else .ok { path with ppth := r.2 }

/-- The member function `_DubinsPath::path_endpoint`; `u` is the indeterminate content of
the local array `q0`. -/
def path_endpoint (core : CoreApi) (self : _DubinsPath) (u : Array3) :
    Except String (Scalar × Scalar × Scalar) :=
  let r := core.dubins_path_endpoint self.ppth u
  if r.1 ≠ 0 then .error "endpoint not found"
  else .ok (r.2.x0, r.2.x1, r.2.x2)

/-- The member function `_DubinsPath::sample`; `u` is the indeterminate content of the
local array `q0`. -/
def sample (core : CoreApi) (self : _DubinsPath) (u : Array3) (t : Scalar) :
    Except String (Scalar × Scalar × Scalar) :=
  let r := core.dubins_path_sample self.ppth t u
  if r.1 ≠ 0 then .error "sample not found"
  else .ok (r.2.x0, r.2.x1, r.2.x2)

/-- The member function `_DubinsPath::extract_subpath`; `u` is the indeterminate content of
the default-constructed `newpath`. -/
def extract_subpath (core : CoreApi) (self : _DubinsPath) (u : DubinsPath) (t : Scalar) :
    Except String _DubinsPath :=
  let newpath := new u
  let r := core.dubins_extract_subpath self.ppth t newpath.ppth
  if r.1 ≠ 0 then .error "invalid subpath"
  else .ok { newpath with ppth := r.2 }

/-- The callback of `_DubinsPath::sample_many`: the lambda captures the vectors `qs` and
`ts` by reference, pushes `q` and `t` to their ends and returns 0. -/
def sample_many_callback (q : Array3) (t : Scalar) (captured : List Array3 × List Scalar) :
    Int × (List Array3 × List Scalar) :=
  (0, (captured.1 ++ [q], captured.2 ++ [t]))

/-- The member function `_DubinsPath::sample_many`: both vectors start empty, the walk runs
with the callback above, its status is ignored and the two vectors are returned (`none`:
the walk has not returned within `fuel` iterations). -/
def sample_many (F : ClosedForms) (fuel : Nat) (self : _DubinsPath) (step_size : Scalar) :
    Option (List Array3 × List Scalar) :=
  (dubins_path_sample_many F fuel self.ppth step_size sample_many_callback ([], [])).map
    fun r => r.state

end _DubinsPath

/-! ### The module-level functions -/

namespace pymodule

open dubins

/-- The module function `shortest_path`: returns what `_DubinsPath::shortest_path`
returns. -/
def shortest_path (core : CoreApi) (u : DubinsPath) (q0 q1 : Array3) (rho : Scalar) :
    Except String _DubinsPath :=
  _DubinsPath.shortest_path core u q0 q1 rho

/-- The module function `path`.  The lambda default-constructs a local `_DubinsPath path`
(indeterminate content `u`), calls the static member `path.path(q0, q1, rho, word)` (whose
own local has indeterminate content `v`) without using what it returns, and returns the
local; an exception of the call propagates. -/
def path (core : CoreApi) (u v : DubinsPath) (q0 q1 : Array3) (rho : Scalar) (word : Int) :
    Except String _DubinsPath :=
  let path := _DubinsPath.new u
  match _DubinsPath.path core v q0 q1 rho word with
  | .error e => .error e
  | .ok _ => .ok path

/-- The module function `norm_path`: calls the module attribute `path` with
`q0 = (0, 0, alpha)`, `q1 = (delta, 0, beta)` and radius `1.0`. -/
def norm_path (core : CoreApi) (u v : DubinsPath) (alpha beta delta : Scalar) (word : Int) :
    Except String _DubinsPath :=
  let q0 : Array3 := ⟨0, 0, alpha⟩
  let q1 : Array3 := ⟨delta, 0, beta⟩
  path core u v q0 q1 1 word

end pymodule

/-! ## Theorems -/

open dubins

namespace dubins

/-- C4: `DIRDATA`, indexed by the integer value of the path type, holds for each of the six
words the three segment kinds of the word table, and the i-th kind is the one named by the
i-th letter of the word's identifier. -/
theorem DIRDATA_word_table :
    DubinsPathType.LSL.toInt = 0 ∧ DubinsPathType.LSR.toInt = 1 ∧
    DubinsPathType.RSL.toInt = 2 ∧ DubinsPathType.RSR.toInt = 3 ∧
    DubinsPathType.RLR.toInt = 4 ∧ DubinsPathType.LRL.toInt = 5 ∧
    DIRDATA.length = 6 ∧
    dirdataRow .LSL = some [.L_SEG, .S_SEG, .L_SEG] ∧
    dirdataRow .LSR = some [.L_SEG, .S_SEG, .R_SEG] ∧
    dirdataRow .RSL = some [.R_SEG, .S_SEG, .L_SEG] ∧
    dirdataRow .RSR = some [.R_SEG, .S_SEG, .R_SEG] ∧
    dirdataRow .RLR = some [.R_SEG, .L_SEG, .R_SEG] ∧
    dirdataRow .LRL = some [.L_SEG, .R_SEG, .L_SEG] ∧
    (∀ w : DubinsPathType,
      (dirdataRow w).map (List.map SegmentType.letter) = some w.letters) := by
  refine ⟨rfl, rfl, rfl, rfl, rfl, rfl, rfl, rfl, rfl, rfl, rfl, rfl, rfl, ?_⟩
  intro w
  cases w <;> rfl

/-- C10: `EDUBOK` is 0, the four failure codes are non-zero, and the five codes are
pairwise distinct. -/
theorem status_codes_discriminate :
    EDUBOK = 0 ∧
    EDUBCOCONFIGS ≠ 0 ∧ EDUBPARAM ≠ 0 ∧ EDUBBADRHO ≠ 0 ∧ EDUBNOPATH ≠ 0 ∧
    [EDUBOK, EDUBCOCONFIGS, EDUBPARAM, EDUBBADRHO, EDUBNOPATH].Nodup ∧
    (∀ s ∈ [EDUBOK, EDUBCOCONFIGS, EDUBPARAM, EDUBBADRHO, EDUBNOPATH],
      (s = 0 ↔ s = EDUBOK)) := by
  decide

/-- C2: `dubins_path_sample` returns zero exactly for the offsets with
`0 ≤ t < dubins_path_length`; for every other offset (negative, or at or beyond the total
length, the total length itself included) it returns the non-zero status `EDUBPARAM`. -/
theorem dubins_path_sample_status (F : ClosedForms) (path : DubinsPath) (t : Scalar) :
    (status (dubins_path_sample F path t) = 0 ↔ 0 ≤ t ∧ t < dubins_path_length path) ∧
    ((t < 0 ∨ dubins_path_length path ≤ t) →
      status (dubins_path_sample F path t) = EDUBPARAM ∧
      status (dubins_path_sample F path t) ≠ 0) ∧
    status (dubins_path_sample F path (dubins_path_length path)) ≠ 0 := by
  have hout : ∀ x : Scalar, (x < 0 ∨ dubins_path_length path ≤ x) →
      status (dubins_path_sample F path x) = EDUBPARAM := by
    intro x hx
    simp [dubins_path_sample, hx, status]
  have hin : ∀ x : Scalar, ¬ (x < 0 ∨ dubins_path_length path ≤ x) →
      status (dubins_path_sample F path x) = 0 := by
    intro x hx
    unfold dubins_path_sample
    rw [if_neg hx]
    dsimp only
    split_ifs <;> rfl
  have hne : EDUBPARAM ≠ 0 := by decide
  refine ⟨⟨fun h => ?_, fun h => ?_⟩, fun h => ?_, ?_⟩
  · by_contra hc
    have hx : t < 0 ∨ dubins_path_length path ≤ t := by
      by_contra hn
      push_neg at hn
      exact hc ⟨hn.1, hn.2⟩
    rw [hout t hx] at h
    exact hne h
  · apply hin
    push_neg
    exact h
  · rw [hout t h]
    exact ⟨rfl, hne⟩
  · rw [hout _ (Or.inr le_rfl)]
    exact hne

/-- Witness of C2: on the straight path of length 4, the offset 3 is sampled and the offset
4, the total length itself, is refused with `EDUBPARAM`. -/
theorem dubins_path_sample_status_witness :
    status (dubins_path_sample axisForms straightPath 3) = 0 ∧
    status (dubins_path_sample axisForms straightPath 4) = EDUBPARAM :=
  ⟨(dubins_path_sample_status axisForms straightPath 3).1.2
      ⟨by norm_num, by
        norm_num [dubins_path_length, dubins_segment_length, Array3.get, straightPath]⟩,
    ((dubins_path_sample_status axisForms straightPath 4).2.1
      (Or.inr (by
        norm_num [dubins_path_length, dubins_segment_length, Array3.get, straightPath]))).1⟩

/-- C3: with a radius that is zero or negative, `dubins_shortest_path`, `dubins_path` (for
every word) and `dubins_intermediate_results` fail with `EDUBBADRHO`, whatever the start and
end poses. -/
theorem bad_rho_rejected (F : ClosedForms) (q0 q1 : Array3) (rho : Scalar)
    (pathType : DubinsPathType) (h : rho ≤ 0) :
    dubins_shortest_path F q0 q1 rho = .error EDUBBADRHO ∧
    dubins_path F q0 q1 rho pathType = .error EDUBBADRHO ∧
    dubins_intermediate_results F q0 q1 rho = .error EDUBBADRHO ∧
    status (dubins_shortest_path F q0 q1 rho) = EDUBBADRHO ∧
    status (dubins_path F q0 q1 rho pathType) = EDUBBADRHO ∧
    status (dubins_intermediate_results F q0 q1 rho) = EDUBBADRHO := by
  have hi : dubins_intermediate_results F q0 q1 rho = .error EDUBBADRHO := by
    simp [dubins_intermediate_results, h]
  have hs : dubins_shortest_path F q0 q1 rho = .error EDUBBADRHO := by
    simp [dubins_shortest_path, h]
  have hp : dubins_path F q0 q1 rho pathType = .error EDUBBADRHO := by
    simp [dubins_path, hi]
  refine ⟨hs, hp, hi, ?_, ?_, ?_⟩
  · rw [hs]; rfl
  · rw [hp]; rfl
  · rw [hi]; rfl

/-- Witness of C3: radius 0 with coinciding start and end poses, word RLR. -/
theorem bad_rho_rejected_witness :
    dubins_shortest_path axisForms ⟨0, 0, 0⟩ ⟨0, 0, 0⟩ 0 = .error EDUBBADRHO ∧
    dubins_path axisForms ⟨0, 0, 0⟩ ⟨0, 0, 0⟩ 0 .RLR = .error EDUBBADRHO ∧
    dubins_intermediate_results axisForms ⟨0, 0, 0⟩ ⟨0, 0, 0⟩ 0 = .error EDUBBADRHO ∧
    status (dubins_shortest_path axisForms ⟨0, 0, 0⟩ ⟨0, 0, 0⟩ 0) = EDUBBADRHO ∧
    status (dubins_path axisForms ⟨0, 0, 0⟩ ⟨0, 0, 0⟩ 0 .RLR) = EDUBBADRHO ∧
    status (dubins_intermediate_results axisForms ⟨0, 0, 0⟩ ⟨0, 0, 0⟩ 0) = EDUBBADRHO :=
  bad_rho_rejected axisForms ⟨0, 0, 0⟩ ⟨0, 0, 0⟩ 0 .RLR (le_refl 0)

/-- C5: for each index 0, 1, 2 the segment length is `param[i] * rho`, which is the
normalized segment length times `rho`; the path length is the sum of the three segment
lengths, which is `(param[0] + param[1] + param[2]) * rho`. -/
theorem segment_and_path_length (path : DubinsPath) :
    dubins_segment_length path 0 = path.param.x0 * path.rho ∧
    dubins_segment_length path 1 = path.param.x1 * path.rho ∧
    dubins_segment_length path 2 = path.param.x2 * path.rho ∧
    (∀ i : Fin 3, dubins_segment_length path i = path.param.get i * path.rho ∧
      dubins_segment_length path i = dubins_segment_length_normalized path i * path.rho) ∧
    dubins_path_length path =
      dubins_segment_length path 0 + dubins_segment_length path 1 +
        dubins_segment_length path 2 ∧
    dubins_path_length path = (path.param.x0 + path.param.x1 + path.param.x2) * path.rho := by
  refine ⟨rfl, rfl, rfl, fun i => ⟨rfl, rfl⟩, rfl, ?_⟩
  simp only [dubins_path_length, dubins_segment_length, Array3.get]
  ring

end dubins

/-- C7: each of the five wrappers raises exactly when the core function it calls returns a
non-zero status, and with status zero it returns the value the core function wrote to its
output argument. -/
theorem wrappers_keep_core_outcome (core : CoreApi) (self : _DubinsPath) (u : DubinsPath)
    (a : Array3) (q0 q1 : Array3) (rho t : Scalar) (word : Int) :
    ((raises (_DubinsPath.shortest_path core u q0 q1 rho) ↔
        (core.dubins_shortest_path u q0 q1 rho).1 ≠ 0) ∧
      ((core.dubins_shortest_path u q0 q1 rho).1 = 0 →
        _DubinsPath.shortest_path core u q0 q1 rho =
          .ok ⟨(core.dubins_shortest_path u q0 q1 rho).2⟩)) ∧
    ((raises (_DubinsPath.path core u q0 q1 rho word) ↔
        (core.dubins_path u q0 q1 rho word).1 ≠ 0) ∧
      ((core.dubins_path u q0 q1 rho word).1 = 0 →
        _DubinsPath.path core u q0 q1 rho word =
          .ok ⟨(core.dubins_path u q0 q1 rho word).2⟩)) ∧
    ((raises (_DubinsPath.path_endpoint core self a) ↔
        (core.dubins_path_endpoint self.ppth a).1 ≠ 0) ∧
      ((core.dubins_path_endpoint self.ppth a).1 = 0 →
        _DubinsPath.path_endpoint core self a =
          .ok ((core.dubins_path_endpoint self.ppth a).2.x0,
               (core.dubins_path_endpoint self.ppth a).2.x1,
               (core.dubins_path_endpoint self.ppth a).2.x2))) ∧
    ((raises (_DubinsPath.sample core self a t) ↔
        (core.dubins_path_sample self.ppth t a).1 ≠ 0) ∧
      ((core.dubins_path_sample self.ppth t a).1 = 0 →
        _DubinsPath.sample core self a t =
          .ok ((core.dubins_path_sample self.ppth t a).2.x0,
               (core.dubins_path_sample self.ppth t a).2.x1,
               (core.dubins_path_sample self.ppth t a).2.x2))) ∧
    ((raises (_DubinsPath.extract_subpath core self u t) ↔
        (core.dubins_extract_subpath self.ppth t u).1 ≠ 0) ∧
      ((core.dubins_extract_subpath self.ppth t u).1 = 0 →
        _DubinsPath.extract_subpath core self u t =
          .ok ⟨(core.dubins_extract_subpath self.ppth t u).2⟩)) := by
  refine ⟨⟨?_, ?_⟩, ⟨?_, ?_⟩, ⟨?_, ?_⟩, ⟨?_, ?_⟩, ⟨?_, ?_⟩⟩
  · by_cases h : (core.dubins_shortest_path u q0 q1 rho).1 = 0 <;>
      simp [_DubinsPath.shortest_path, _DubinsPath.new, raises, h]
  · intro h
    simp [_DubinsPath.shortest_path, _DubinsPath.new, h]
  · by_cases h : (core.dubins_path u q0 q1 rho word).1 = 0 <;>
      simp [_DubinsPath.path, _DubinsPath.new, raises, h]
  · intro h
    simp [_DubinsPath.path, _DubinsPath.new, h]
  · by_cases h : (core.dubins_path_endpoint self.ppth a).1 = 0 <;>
      simp [_DubinsPath.path_endpoint, raises, h]
  · intro h
    simp [_DubinsPath.path_endpoint, h]
  · by_cases h : (core.dubins_path_sample self.ppth t a).1 = 0 <;>
      simp [_DubinsPath.sample, raises, h]
  · intro h
    simp [_DubinsPath.sample, h]
  · by_cases h : (core.dubins_extract_subpath self.ppth t u).1 = 0 <;>
      simp [_DubinsPath.extract_subpath, _DubinsPath.new, raises, h]
  · intro h
    simp [_DubinsPath.extract_subpath, _DubinsPath.new, h]

/-- C6 (the code at fault): whenever `dubins_path` succeeds, the module function `path`
returns the default-constructed local object, with the indeterminate content `u`, whatever
`dubins_path` wrote; it is the object `_DubinsPath::path` returns only if `dubins_path`
happened to write exactly `u`. -/
theorem module_path_returns_unwritten_object (core : CoreApi) (u v : DubinsPath)
    (q0 q1 : Array3) (rho : Scalar) (word : Int) :
    pymodule.path core u v q0 q1 rho word =
      (if (core.dubins_path v q0 q1 rho word).1 ≠ 0
        then .error "Path did not initialize correctly"
        else .ok (_DubinsPath.new u)) ∧
    ((core.dubins_path v q0 q1 rho word).1 = 0 →
      (_DubinsPath.path core v q0 q1 rho word =
          .ok ⟨(core.dubins_path v q0 q1 rho word).2⟩ ∧
        (pymodule.path core u v q0 q1 rho word = _DubinsPath.path core v q0 q1 rho word ↔
          (core.dubins_path v q0 q1 rho word).2 = u))) := by
  constructor
  · by_cases h : (core.dubins_path v q0 q1 rho word).1 = 0 <;>
      simp [pymodule.path, _DubinsPath.path, _DubinsPath.new, h]
  · intro h
    have hp : _DubinsPath.path core v q0 q1 rho word =
        .ok ⟨(core.dubins_path v q0 q1 rho word).2⟩ := by
      simp [_DubinsPath.path, _DubinsPath.new, h]
    refine ⟨hp, ?_⟩
    simp only [pymodule.path, hp, _DubinsPath.new]
    constructor
    · intro e
      injection e with e
      injection e with e
      exact e.symm
    · intro e
      rw [e]

/-- C9: `norm_path(alpha, beta, delta, word)` is the module function `path` called with
`q0 = (0, 0, alpha)`, `q1 = (delta, 0, beta)` and radius 1: the same result, and an
exception exactly when that call raises one, which is when `dubins_path` returns a non-zero
status for these arguments. -/
theorem norm_path_is_path (core : CoreApi) (u v : DubinsPath) (alpha beta delta : Scalar)
    (word : Int) :
    pymodule.norm_path core u v alpha beta delta word =
      pymodule.path core u v ⟨0, 0, alpha⟩ ⟨delta, 0, beta⟩ 1 word ∧
    (raises (pymodule.norm_path core u v alpha beta delta word) ↔
      raises (pymodule.path core u v ⟨0, 0, alpha⟩ ⟨delta, 0, beta⟩ 1 word)) ∧
    (raises (pymodule.norm_path core u v alpha beta delta word) ↔
      (core.dubins_path v ⟨0, 0, alpha⟩ ⟨delta, 0, beta⟩ 1 word).1 ≠ 0) := by
  refine ⟨rfl, Iff.rfl, ?_⟩
  by_cases h : (core.dubins_path v ⟨0, 0, alpha⟩ ⟨delta, 0, beta⟩ 1 word).1 = 0 <;>
    simp [pymodule.norm_path, pymodule.path, _DubinsPath.path, _DubinsPath.new, raises, h]

namespace dubins

/-- Inside the range `0 ≤ t < dubins_path_length`, `dubins_path_sample` yields a pose. -/
theorem dubins_path_sample_in_range (F : ClosedForms) (path : DubinsPath) (t : Scalar)
    (h0 : 0 ≤ t) (h1 : t < dubins_path_length path) :
    ∃ q, dubins_path_sample F path t = .ok q := by
  have hx : ¬ (t < 0 ∨ dubins_path_length path ≤ t) := by
    push_neg
    exact ⟨h0, h1⟩
  unfold dubins_path_sample
  rw [if_neg hx]
  dsimp only
  split_ifs
  · exact ⟨_, rfl⟩
  · exact ⟨_, rfl⟩
  · exact ⟨_, rfl⟩

/-- The total length of `straightPath` is 4. -/
theorem straightPath_length : dubins_path_length straightPath = 4 := by
  norm_num [dubins_path_length, dubins_segment_length, Array3.get, straightPath]

/-- With enough fuel for the remaining length (`length - x ≤ fuel * step`), the loop of
`dubins_path_sample_many` run with the callback of `_DubinsPath::sample_many` returns, ends
naturally with status 0, and keeps the two captured vectors equal to the configurations and
the offsets of the invocations so far. -/
theorem sampleManyLoop_collects (F : ClosedForms) (path : DubinsPath) (step : Scalar) :
    ∀ (fuel : Nat) (x : Scalar) (s : List Array3 × List Scalar) (log : List (Array3 × Scalar)),
      0 ≤ x → dubins_path_length path - x ≤ fuel * step →
      s.1 = log.map Prod.fst → s.2 = log.map Prod.snd →
      ∃ r, sampleManyLoop F path step _DubinsPath.sample_many_callback fuel x s log = some r ∧
        r.ret = 0 ∧ r.state.1 = r.calls.map Prod.fst ∧ r.state.2 = r.calls.map Prod.snd ∧
        (∀ c ∈ r.calls, c ∈ log ∨ dubins_path_sample F path c.2 = .ok c.1) := by
  intro fuel
  induction fuel with
  | zero =>
    intro x s log _ hfuel h1 h2
    have hx : ¬ x < dubins_path_length path := by
      simp only [Nat.cast_zero, zero_mul] at hfuel
      linarith
    refine ⟨{ ret := 0, state := s, calls := log }, ?_, rfl, h1, h2, fun c hc => Or.inl hc⟩
    simp [sampleManyLoop, hx]
  | succ n ih =>
    intro x s log hx0 hfuel h1 h2
    by_cases hx : x < dubins_path_length path
    · obtain ⟨q, hq⟩ := dubins_path_sample_in_range F path x hx0 hx
      have hcast : ((n + 1 : ℕ) : ℚ) * step = n * step + step := by
        push_cast
        ring
      rw [hcast] at hfuel
      have hstep : 0 < step := by
        by_contra hn
        have h0 : step ≤ 0 := not_lt.mp hn
        have h3 : (n : ℚ) * step ≤ 0 := mul_nonpos_of_nonneg_of_nonpos (Nat.cast_nonneg n) h0
        linarith
      have hrem : dubins_path_length path - (x + step) ≤ n * step := by linarith
      obtain ⟨r, hr, hret, hq1, hq2, hcalls⟩ :=
        ih (x + step) (s.1 ++ [q], s.2 ++ [x]) (log ++ [(q, x)]) (by linarith) hrem
          (by simp [h1]) (by simp [h2])
      refine ⟨r, ?_, hret, hq1, hq2, ?_⟩
      · simp only [sampleManyLoop, hx, if_true, hq, _DubinsPath.sample_many_callback]
        simpa using hr
      · intro c hc
        rcases hcalls c hc with hmem | hs
        · rcases List.mem_append.mp hmem with hl | hl
          · exact Or.inl hl
          · right
            have hc : c = (q, x) := by simpa using hl
            rw [hc]
            exact hq
        · exact Or.inr hs
    · refine ⟨{ ret := 0, state := s, calls := log }, ?_, rfl, h1, h2, fun c hc => Or.inl hc⟩
      simp [sampleManyLoop, hx]

/-- A loop of `dubins_path_sample_many` that has returned within `fuel` iterations returns
the same with one more. -/
theorem sampleManyLoop_succ {σ : Type} (F : ClosedForms) (path : DubinsPath) (step : Scalar)
    (cb : Array3 → Scalar → σ → Int × σ) :
    ∀ (fuel : Nat) (x : Scalar) (s : σ) (log : List (Array3 × Scalar)) (r : WalkResult σ),
      sampleManyLoop F path step cb fuel x s log = some r →
      sampleManyLoop F path step cb (fuel + 1) x s log = some r := by
  intro fuel
  induction fuel with
  | zero =>
    intro x s log r h
    by_cases hx : x < dubins_path_length path
    · simp [sampleManyLoop, hx] at h
    · simp only [sampleManyLoop, hx, if_false] at h ⊢
      exact h
  | succ n ih =>
    intro x s log r h
    by_cases hx : x < dubins_path_length path
    · rw [sampleManyLoop] at h ⊢
      simp only [hx, if_true] at h ⊢
      cases hq : dubins_path_sample F path x with
      | error e =>
        rw [hq] at h
        exact ih _ _ _ r h
      | ok q =>
        rw [hq] at h
        dsimp only at h ⊢
        by_cases hc : (cb q x s).1 ≠ 0
        · rw [if_pos hc] at h ⊢
          exact h
        · rw [if_neg hc] at h ⊢
          exact ih _ _ _ r h
    · rw [sampleManyLoop] at h ⊢
      simp only [hx, if_false] at h ⊢
      exact h

/-- A loop of `dubins_path_sample_many` that has returned within `n` iterations returns the
same within any larger number. -/
theorem sampleManyLoop_mono {σ : Type} (F : ClosedForms) (path : DubinsPath) (step : Scalar)
    (cb : Array3 → Scalar → σ → Int × σ) (n : Nat) (x : Scalar) (s : σ)
    (log : List (Array3 × Scalar)) (r : WalkResult σ)
    (h : sampleManyLoop F path step cb n x s log = some r) :
    ∀ fuel, n ≤ fuel → sampleManyLoop F path step cb fuel x s log = some r := by
  intro fuel hle
  induction fuel, hle using Nat.le_induction with
  | base => exact h
  | succ m _ ihm => exact sampleManyLoop_succ F path step cb m x s log r ihm

/-- With a step that is not positive on a path of positive length, the loop of
`dubins_path_sample_many`, run with the callback of `_DubinsPath::sample_many` from an
offset that is not positive, is still running whatever the fuel. -/
theorem sampleManyLoop_diverges (F : ClosedForms) (path : DubinsPath) (step : Scalar)
    (hstep : step ≤ 0) (hlen : 0 < dubins_path_length path) :
    ∀ (fuel : Nat) (x : Scalar) (s : List Array3 × List Scalar) (log : List (Array3 × Scalar)),
      x ≤ 0 →
      sampleManyLoop F path step _DubinsPath.sample_many_callback fuel x s log = none := by
  intro fuel
  induction fuel with
  | zero =>
    intro x s log hx
    have hlt : x < dubins_path_length path := lt_of_le_of_lt hx hlen
    simp [sampleManyLoop, hlt]
  | succ n ih =>
    intro x s log hx
    have hlt : x < dubins_path_length path := lt_of_le_of_lt hx hlen
    have hnext : x + step ≤ 0 := by linarith
    rw [sampleManyLoop]
    simp only [hlt, if_true]
    cases hq : dubins_path_sample F path x with
    | error e => exact ih _ _ _ hnext
    | ok q =>
      simp only [_DubinsPath.sample_many_callback, ne_eq, not_true_eq_false, if_false]
      exact ih _ _ _ hnext

end dubins

/-- C8 as stated fails: for the straight path of length 4 and step size 0,
`_DubinsPath::sample_many` returns nothing, however many iterations the walk is given. -/
theorem sample_many_zero_step_never_returns :
    ¬ ∃ (F : ClosedForms) (fuel : Nat),
      (_DubinsPath.sample_many F fuel ⟨straightPath⟩ 0).isSome = true := by
  rintro ⟨F, fuel, h⟩
  have hnone := sampleManyLoop_diverges F straightPath 0 le_rfl
    (by rw [straightPath_length]; norm_num) fuel 0 ([], []) [] le_rfl
  simp [_DubinsPath.sample_many, dubins_path_sample_many, hnone] at h

/-- C8, amended: for every path and every step size greater than 0 (and for every step size
on a path whose total length is not positive), `_DubinsPath::sample_many` returns: from some
number of iterations on, the walk has ended, always with the same result.  The two lists
returned have equal length and hold the configurations and the offsets passed to the
callback by `dubins_path_sample_many`, in invocation order; the callback returns 0 on every
invocation, the walk ends with status 0, and every configuration delivered is the sample at
its offset. -/
theorem sample_many_collects_calls (F : ClosedForms) (self : _DubinsPath)
    (step_size : Scalar) (h : 0 < step_size ∨ dubins_path_length self.ppth ≤ 0) :
    ∃ (fuel0 : Nat) (r : WalkResult (List Array3 × List Scalar)),
      (∀ fuel, fuel0 ≤ fuel →
        dubins_path_sample_many F fuel self.ppth step_size
          _DubinsPath.sample_many_callback ([], []) = some r ∧
        _DubinsPath.sample_many F fuel self step_size = some r.state) ∧
      r.ret = 0 ∧
      r.state.1.length = r.state.2.length ∧
      r.state.1 = r.calls.map Prod.fst ∧
      r.state.2 = r.calls.map Prod.snd ∧
      (∀ c ∈ r.calls, dubins_path_sample F self.ppth c.2 = .ok c.1) ∧
      (∀ q t captured, (_DubinsPath.sample_many_callback q t captured).1 = 0) := by
  have hfuel : ∃ fuel0 : Nat, dubins_path_length self.ppth ≤ fuel0 * step_size := by
    rcases h with hpos | hle
    · refine ⟨⌈dubins_path_length self.ppth / step_size⌉₊, ?_⟩
      have hceil := Nat.le_ceil (dubins_path_length self.ppth / step_size)
      exact (div_le_iff₀ hpos).mp hceil
    · exact ⟨0, by simpa using hle⟩
  obtain ⟨fuel0, hfuel0⟩ := hfuel
  obtain ⟨r, hr, hret, h1, h2, hcalls⟩ :=
    sampleManyLoop_collects F self.ppth step_size fuel0 0 ([], []) [] le_rfl
      (by simpa using hfuel0) rfl rfl
  refine ⟨fuel0, r, fun fuel hle => ?_, hret, ?_, h1, h2, ?_, fun _ _ _ => rfl⟩
  · have hrun : dubins_path_sample_many F fuel self.ppth step_size
        _DubinsPath.sample_many_callback ([], []) = some r :=
      sampleManyLoop_mono F self.ppth step_size _ fuel0 0 ([], []) [] r hr fuel hle
    exact ⟨hrun, by simp [_DubinsPath.sample_many, hrun]⟩
  · rw [h1, h2]
    simp
  · intro c hc
    rcases hcalls c hc with hmem | hs
    · simp at hmem
    · exact hs

/-- Witness of C8, amended: the straight path of length 4 walked with step 1; with four
iterations the lists returned are the four poses at offsets 0, 1, 2, 3. -/
theorem sample_many_collects_calls_witness :
    _DubinsPath.sample_many axisForms 4 ⟨straightPath⟩ 1 =
      some ([⟨0, 0, 0⟩, ⟨1, 0, 0⟩, ⟨2, 0, 0⟩, ⟨3, 0, 0⟩], [0, 1, 2, 3]) ∧
    ∃ (fuel0 : Nat) (r : WalkResult (List Array3 × List Scalar)),
      (∀ fuel, fuel0 ≤ fuel →
        dubins_path_sample_many axisForms fuel straightPath 1
          _DubinsPath.sample_many_callback ([], []) = some r ∧
        _DubinsPath.sample_many axisForms fuel ⟨straightPath⟩ 1 = some r.state) ∧
      r.ret = 0 ∧
      r.state.1.length = r.state.2.length ∧
      r.state.1 = r.calls.map Prod.fst ∧
      r.state.2 = r.calls.map Prod.snd ∧
      (∀ c ∈ r.calls, dubins_path_sample axisForms straightPath c.2 = .ok c.1) ∧
      (∀ q t captured, (_DubinsPath.sample_many_callback q t captured).1 = 0) := by
  refine ⟨?_, sample_many_collects_calls axisForms ⟨straightPath⟩ 1 (Or.inl (by norm_num))⟩
  norm_num [_DubinsPath.sample_many, dubins_path_sample_many, sampleManyLoop,
    dubins_path_length, dubins_path_sample, _DubinsPath.sample_many_callback,
    dubins_segment_length, Array3.get, segmentKind, dirdataRow, DIRDATA,
    DubinsPathType.toInt, axisForms, straightPath]

namespace dubins

/-- Every word is tried by the search of `dubins_shortest_path`. -/
theorem mem_allWords (w : DubinsPathType) : w ∈ allWords := by
  cases w <;> simp [allWords]

/-- What the word search returns: nothing only if there was no best so far and no word
left is feasible; otherwise a feasible word whose cost is at most the cost of the best so
far and of every feasible word left. -/
theorem searchWords_spec (F : ClosedForms) (g : DubinsIntermediateResults) :
    ∀ (ws : List DubinsPathType) (best : Option (DubinsPathType × Array3)),
      (∀ b, best = some b → F.synthesize g b.1 = some b.2) →
      (searchWords F g ws best = none →
        best = none ∧ ∀ w ∈ ws, F.synthesize g w = none) ∧
      (∀ r, searchWords F g ws best = some r →
        F.synthesize g r.1 = some r.2 ∧
        (∀ b, best = some b → cost r.2 ≤ cost b.2) ∧
        (∀ w ∈ ws, ∀ p, F.synthesize g w = some p → cost r.2 ≤ cost p)) := by
  intro ws
  induction ws with
  | nil =>
    intro best hbest
    refine ⟨fun h => ⟨by simpa [searchWords] using h, by simp⟩, fun r hr => ?_⟩
    have hr : best = some r := by simpa [searchWords] using hr
    refine ⟨hbest r hr, fun b hb => ?_, by simp⟩
    rw [hr] at hb
    injection hb with hb
    rw [hb]
  | cons w ws ih =>
    intro best hbest
    cases hw : F.synthesize g w with
    | none =>
      have hs : searchWords F g (w :: ws) best = searchWords F g ws best := by
        simp [searchWords, hw]
      rw [hs]
      obtain ⟨h1, h2⟩ := ih best hbest
      refine ⟨fun h => ⟨(h1 h).1, fun w' hw' => ?_⟩, fun r hr => ?_⟩
      · rcases List.mem_cons.mp hw' with e | e
        · rw [e]; exact hw
        · exact (h1 h).2 w' e
      · obtain ⟨ha, hb, hc⟩ := h2 r hr
        refine ⟨ha, hb, fun w' hw' p hp => ?_⟩
        rcases List.mem_cons.mp hw' with e | e
        · rw [e, hw] at hp
          exact absurd hp (by simp)
        · exact hc w' e p hp
    | some params =>
      cases hb : best with
      | none =>
        have hs : searchWords F g (w :: ws) none = searchWords F g ws (some (w, params)) := by
          simp [searchWords, hw]
        rw [hs]
        obtain ⟨h1, h2⟩ := ih (some (w, params)) (by
          intro b hb'
          injection hb' with hb'
          rw [← hb']
          exact hw)
        refine ⟨fun h => absurd (h1 h).1 (by simp), fun r hr => ?_⟩
        obtain ⟨ha, hb', hc⟩ := h2 r hr
        refine ⟨ha, by simp, fun w' hw' p hp => ?_⟩
        rcases List.mem_cons.mp hw' with e | e
        · rw [e, hw] at hp
          injection hp with hp
          rw [← hp]
          exact hb' (w, params) rfl
        · exact hc w' e p hp
      | some b0 =>
        obtain ⟨bw, bp⟩ := b0
        have hb0 : F.synthesize g bw = some bp := hbest (bw, bp) hb
        by_cases hlt : cost params < cost bp
        · have hs : searchWords F g (w :: ws) (some (bw, bp)) =
              searchWords F g ws (some (w, params)) := by
            simp [searchWords, hw, hlt]
          rw [hs]
          obtain ⟨h1, h2⟩ := ih (some (w, params)) (by
            intro b hb'
            injection hb' with hb'
            rw [← hb']
            exact hw)
          refine ⟨fun h => absurd (h1 h).1 (by simp), fun r hr => ?_⟩
          obtain ⟨ha, hb', hc⟩ := h2 r hr
          have hle : cost r.2 ≤ cost params := hb' (w, params) rfl
          refine ⟨ha, fun b hbb => ?_, fun w' hw' p hp => ?_⟩
          · injection hbb with hbb
            rw [← hbb]
            exact le_of_lt (lt_of_le_of_lt hle hlt)
          · rcases List.mem_cons.mp hw' with e | e
            · rw [e, hw] at hp
              injection hp with hp
              rw [← hp]
              exact hle
            · exact hc w' e p hp
        · have hs : searchWords F g (w :: ws) (some (bw, bp)) =
              searchWords F g ws (some (bw, bp)) := by
            simp [searchWords, hw, hlt]
          rw [hs]
          obtain ⟨h1, h2⟩ := ih (some (bw, bp)) (by
            intro b hb'
            injection hb' with hb'
            rw [← hb']
            exact hb0)
          refine ⟨fun h => absurd (h1 h).1 (by simp), fun r hr => ?_⟩
          obtain ⟨ha, hb', hc⟩ := h2 r hr
          have hle : cost r.2 ≤ cost bp := hb' (bw, bp) rfl
          refine ⟨ha, fun b hbb => ?_, fun w' hw' p hp => ?_⟩
          · injection hbb with hbb
            rw [← hbb]
            exact hle
          · rcases List.mem_cons.mp hw' with e | e
            · rw [e, hw] at hp
              injection hp with hp
              rw [← hp]
              exact le_trans hle (not_lt.mp hlt)
            · exact hc w' e p hp

/-- For a positive radius and distinct start and end poses, `dubins_shortest_path` succeeds
exactly when `dubins_path` succeeds for at least one word, fails with `EDUBNOPATH`
otherwise, and the path it returns is at most as long as the path `dubins_path` returns for
any word. -/
theorem dubins_shortest_path_minimal (F : ClosedForms) (q0 q1 : Array3) (rho : Scalar)
    (hrho : 0 < rho) (hne : q0 ≠ q1) :
    (status (dubins_shortest_path F q0 q1 rho) = 0 ↔
      ∃ w, status (dubins_path F q0 q1 rho w) = 0) ∧
    (status (dubins_shortest_path F q0 q1 rho) ≠ 0 →
      dubins_shortest_path F q0 q1 rho = .error EDUBNOPATH) ∧
    (∀ p, dubins_shortest_path F q0 q1 rho = .ok p →
      ∀ w pw, dubins_path F q0 q1 rho w = .ok pw →
        dubins_path_length p ≤ dubins_path_length pw) := by
  have hr : ¬ rho ≤ 0 := not_le.mpr hrho
  have hg : dubins_intermediate_results F q0 q1 rho = .ok (F.geometry q0 q1 rho) := by
    simp [dubins_intermediate_results, hr]
  have hpath : ∀ w, dubins_path F q0 q1 rho w =
      match F.synthesize (F.geometry q0 q1 rho) w with
      | none => .error EDUBNOPATH
      | some params => .ok { qi := q0, param := params, rho := rho, type := w } := by
    intro w
    simp [dubins_path, hg]
  have hshort : dubins_shortest_path F q0 q1 rho =
      match searchWords F (F.geometry q0 q1 rho) allWords none with
      | none => .error EDUBNOPATH
      | some (w, params) => .ok { qi := q0, param := params, rho := rho, type := w } := by
    simp [dubins_shortest_path, hr, hne, hg]
  obtain ⟨h1, h2⟩ := searchWords_spec F (F.geometry q0 q1 rho) allWords none (by simp)
  have hlen : ∀ (pr : Array3) (w : DubinsPathType),
      dubins_path_length { qi := q0, param := pr, rho := rho, type := w } = cost pr * rho := by
    intro pr w
    simp only [dubins_path_length, dubins_segment_length, Array3.get, cost]
    ring
  cases hs : searchWords F (F.geometry q0 q1 rho) allWords none with
  | none =>
    have hnone := (h1 hs).2
    rw [hshort, hs]
    have hne4 : EDUBNOPATH ≠ 0 := by decide
    refine ⟨⟨fun h => absurd h hne4, ?_⟩, fun _ => rfl, fun p hp => by simp at hp⟩
    rintro ⟨w, hw⟩
    rw [hpath w, hnone w (mem_allWords w)] at hw
    exact absurd hw hne4
  | some r =>
    obtain ⟨rw_, rp⟩ := r
    obtain ⟨ha, _, hc⟩ := h2 (rw_, rp) hs
    rw [hshort, hs]
    refine ⟨⟨fun _ => ⟨rw_, ?_⟩, fun _ => rfl⟩, fun h => absurd rfl h, fun p hp w pw hw => ?_⟩
    · rw [hpath rw_, ha]
      rfl
    · rw [hpath w] at hw
      cases hsyn : F.synthesize (F.geometry q0 q1 rho) w with
      | none =>
        rw [hsyn] at hw
        simp at hw
      | some params =>
        rw [hsyn] at hw
        have hp : p = { qi := q0, param := rp, rho := rho, type := rw_ } := by
          simp at hp
          exact hp.symm
        have hw : pw = { qi := q0, param := params, rho := rho, type := w } := by
          simp at hw
          exact hw.symm
        rw [hp, hw, hlen, hlen]
        exact mul_le_mul_of_nonneg_right (hc w (mem_allWords w) params hsyn) (le_of_lt hrho)

end dubins
